import Mathlib

/-! # Balltze tick event: timing, dispatch and one-time activation

A shallow embedding of `src/balltze/event/tick.cpp`.

* The namespace-level statics (`tick_event_hook`, `tick_event_after_chimera_hook`,
  `first_tick`, `last_tick`, `tick_duration`) and the function-local statics of
  `EventHandler<TickEvent>::init` (`enabled`, `tick_event_sig`) are the fields of `State`.
* `std::chrono::steady_clock` samples are integers counting nanoseconds
  (`steady_clock::period` is `std::nano`); `std::chrono::milliseconds` values are integers
  counting milliseconds. `duration_cast` between them is integer division by `1000000`
  rounding toward zero, `Int.tdiv`.
* What a routine reads from outside (`Engine::get_tick_count()`, `steady_clock::now()`,
  the signature manager, `Memory::Hook::follow_jump`) is an argument of its model; what it
  sends outside (`TickEvent::dispatch`, the hook operations) is returned next to the new state.
-/

namespace Balltze

/-! ## Data model -/

/-- The phase of an event: `EVENT_TIME_BEFORE` or `EVENT_TIME_AFTER`. -/
inductive EventTime
  | EVENT_TIME_BEFORE
  | EVENT_TIME_AFTER
deriving DecidableEq, Repr

/-- The payload of a tick event. `delta_time_ms` receives `tick_duration.count()`; it is kept as
an integer, which is the value of the field whatever its signedness as long as the count is
not negative. -/
structure TickEventArguments where
  delta_time_ms : Int
  tick_count : Nat
deriving DecidableEq, Repr

/-- A constructed `TickEvent(time, args)`; `dispatch()` hands it to the listeners, which is
modelled by returning it. -/
structure TickEvent where
  time : EventTime
  args : TickEventArguments
deriving DecidableEq, Repr

/-- The two routines whose addresses are handed to the hooks. -/
inductive Routine
  | tick_event_before_dispatcher
  | tick_event_after_dispatcher
deriving DecidableEq, Repr

/-- Modelled from the spec: `Memory::Hook` (declared in `balltze/memory/hook.hpp`) is a
redirect-site handle with lifecycle uninstalled → installed/active. `site` is the code address
and the replacement routine given to `Hook::initialize`, `hooked` is set by `Hook::hook`. -/
structure Hook where
  site : Option (Nat × Routine)
  hooked : Bool
deriving DecidableEq, Repr

/-- A default-constructed `Memory::Hook`. -/
def Hook.fresh : Hook := { site := none, hooked := false }

/-- Modelled from the spec: `hook.initialize(ptr, fn)` records the redirect site and its
replacement routine (`install(address, replacement_routine)`). -/
def Hook.initialize (h : Hook) (ptr : Nat) (fn : Routine) : Hook :=
  { h with site := some (ptr, fn) }

/-- Modelled from the spec: `hook.hook()` activates the redirect (`activate(handle)`). -/
def Hook.hook (h : Hook) : Hook :=
  { h with hooked := true }

/-- A redirect is installed when it has a site and is active. -/
def Hook.installed (h : Hook) : Bool :=
  h.site.isSome && h.hooked

/-- Names of the two hook objects. -/
inductive HookName
  | tick_event_hook
  | tick_event_after_chimera_hook
deriving DecidableEq, Repr

/-- The calls `EventHandler<TickEvent>::init` makes on its collaborators, in program order. -/
inductive Op
  | sig_get (name : String)
  | hook_initialize (which : HookName) (ptr : Nat) (fn : Routine)
  | hook_hook (which : HookName)
deriving DecidableEq, Repr

/-- All static storage of `tick.cpp`. `tick_event_sig` is a function-local static: `none` until
its declaration is first reached, then the pointer returned by the signature manager, where a
null pointer is `some none` and a signature whose `data()` is `a` is `some (some a)`. -/
structure State where
  tick_event_hook : Hook
  tick_event_after_chimera_hook : Hook
  first_tick : Bool
  last_tick : Int
  tick_duration : Int
  enabled : Bool
  tick_event_sig : Option (Option Nat)
deriving DecidableEq, Repr

/-- The static storage at program start: `first_tick = true`, `tick_duration = 0 ms`,
`last_tick` the clock epoch, `enabled = false`, hooks default-constructed. -/
def State.initial : State :=
  { tick_event_hook := Hook.fresh
    tick_event_after_chimera_hook := Hook.fresh
    first_tick := true
    last_tick := 0
    tick_duration := 0
    enabled := false
    tick_event_sig := none }

/-- Clock units (nanoseconds) per millisecond. -/
def nsPerMs : Int := 1000000

/-- The conversion `std::chrono::duration_cast<std::chrono::milliseconds>` of a nanosecond
duration: integer division rounding toward zero. -/
def duration_cast_ms (d : Int) : Int :=
  d.tdiv nsPerMs

/-! ## The dispatchers -/

/-- The routine `tick_event_before_dispatcher`; `tick_count` is what `Engine::get_tick_count()`
returns. The statics are only read. -/
def tick_event_before_dispatcher (tick_count : Nat) (s : State) : State × TickEvent :=
  let args : TickEventArguments :=
    { delta_time_ms := s.tick_duration, tick_count := tick_count }
  (s, { time := EventTime.EVENT_TIME_BEFORE, args := args })

/-- The routine `tick_event_after_dispatcher`; `tick_count` is what `Engine::get_tick_count()`
returns and `current_tick` what `std::chrono::steady_clock::now()` returns. -/
def tick_event_after_dispatcher (tick_count : Nat) (current_tick : Int) (s : State) :
    State × TickEvent :=
  let s1 : State :=
    if !s.first_tick then
      { s with tick_duration := duration_cast_ms (current_tick - s.last_tick) }
    else
      { s with first_tick := false }
  let s2 : State := { s1 with last_tick := current_tick }
  let args : TickEventArguments :=
    { delta_time_ms := s2.tick_duration, tick_count := tick_count }
  (s2, { time := EventTime.EVENT_TIME_AFTER, args := args })

/-- One entry into a dispatcher, with the values it reads from outside. -/
inductive Call
  | before (tick_count : Nat)
  | after (tick_count : Nat) (current_tick : Int)
deriving DecidableEq, Repr

/-- Execute one dispatcher call. -/
def Call.exec : Call → State → State × TickEvent
  | Call.before c, s => tick_event_before_dispatcher c s
  | Call.after c t, s => tick_event_after_dispatcher c t s

/-- Execute a sequence of dispatcher calls, collecting the dispatched events in order. -/
def runCalls : List Call → State → State × List TickEvent
  | [], s => (s, [])
  | c :: cs, s =>
    let r := c.exec s
    let rest := runCalls cs r.1
    (rest.1, r.2 :: rest.2)

/-- One observed tick: the host counter and the clock sample taken by the AFTER routine. -/
abbrev Tick := Nat × Int

/-- The calls of one observed tick: the entry redirect, then the secondary redirect. -/
def Tick.calls (k : Tick) : List Call :=
  [Call.before k.1, Call.after k.1 k.2]

/-- The calls of a run of ticks. -/
def tickCalls : List Tick → List Call
  | [] => []
  | k :: ks => k.calls ++ tickCalls ks

/-! ## One-time activation -/

/-- What `init` reads from outside: the signature manager (`get` returns the `data()` address of
the signature, or `none` for a null pointer) and `Memory::Hook::follow_jump`, which is declared
in `balltze/memory/hook.hpp` and taken as given. -/
structure Env where
  sig_get : String → Option Nat
  follow_jump : Nat → Nat

/-- The function `EventHandler<TickEvent>::init`. Returns the new statics, the collaborator
calls made, and either normal return or the message of the thrown `std::runtime_error`. -/
def init (env : Env) (s : State) : State × List Op × Except String Unit :=
  if s.enabled then
    (s, [], Except.ok ())
  else
    let s1 : State := { s with enabled := true }
    -- static auto *tick_event_sig = sig_manager.get("on_tick");
    let looked : Option Nat × List Op :=
      match s1.tick_event_sig with
      | some p => (p, [])
      | none => (env.sig_get "on_tick", [Op.sig_get "on_tick"])
    let s2 : State := { s1 with tick_event_sig := some looked.1 }
    match looked.1 with
    | none => (s2, looked.2, Except.error "Could not find signature for tick event")
    | some data =>
      let ptr := env.follow_jump data + 23
      let s3 : State :=
        { s2 with tick_event_after_chimera_hook :=
            Hook.hook ( Hook.initialize s2.tick_event_after_chimera_hook ptr
              Routine.tick_event_after_dispatcher) }
      let s4 : State :=
        { s3 with tick_event_hook :=
            Hook.hook ( Hook.initialize s3.tick_event_hook data
              Routine.tick_event_before_dispatcher) }
      (s4,
        looked.2 ++
          [ Op.hook_initialize HookName.tick_event_after_chimera_hook ptr
              Routine.tick_event_after_dispatcher,
            Op.hook_hook HookName.tick_event_after_chimera_hook,
            Op.hook_initialize HookName.tick_event_hook data
              Routine.tick_event_before_dispatcher,
            Op.hook_hook HookName.tick_event_hook],
        Except.ok ())

/-- Call `init` `n` times in a row (a caller that catches the error may call again), collecting
for each call the collaborator calls it made and how it returned. -/
def initTimes (env : Env) : Nat → State → State × List (List Op × Except String Unit)
  | 0, s => (s, [])
  | n + 1, s =>
    let r := init env s
    let rest := initTimes env n r.1
    (rest.1, r.2 :: rest.2)



/-! ## Vocabulary of the properties -/

/-- The timing statics hold their initial values: `first_tick = true`, `tick_duration = 0`. -/
def CoreInitial (s : State) : Prop :=
  s.first_tick = true ∧ s.tick_duration = 0

instance (s : State) : Decidable (CoreInitial s) :=
  inferInstanceAs (Decidable (_ ∧ _))

/-- The same statics with `last_tick` holding `l`. -/
def State.setLastTick (s : State) (l : Int) : State :=
  { s with last_tick := l }

/-- Whether a call enters the AFTER routine. -/
def Call.isAfter : Call → Bool
  | Call.before _ => false
  | Call.after _ _ => true

/-- The `delta_time_ms` of the most recent AFTER event of a list of events, `0` if there is
none. -/
def lastAfterDelta (evs : List TickEvent) : Int :=
  match evs.reverse.find? (fun e => e.time = EventTime.EVENT_TIME_AFTER) with
  | some e => e.args.delta_time_ms
  | none => 0

/-- The clock samples of a run of ticks are non-decreasing. -/
def SamplesMonotone (ticks : List Tick) : Prop :=
  (ticks.map Prod.snd).Pairwise (· ≤ ·)

instance (ticks : List Tick) : Decidable (SamplesMonotone ticks) :=
  inferInstanceAs (Decidable (List.Pairwise _ _))

/-- The counter `c_i` of tick `i`, ticks numbered from 1. -/
def counterAt (ticks : List Tick) (i : Nat) : Nat :=
  (ticks.getD (i - 1) (0, 0)).1

/-- The clock sample `t_i` of tick `i`, ticks numbered from 1. -/
def sampleAt (ticks : List Tick) (i : Nat) : Int :=
  (ticks.getD (i - 1) (0, 0)).2

/-- The duration `d_i` of the stated notification list: `d_0 = d_1 = 0` and, for `i ≥ 2`,
`t_i - t_{i-1}` in whole milliseconds, truncated. -/
def specDelta (ticks : List Tick) : Nat → Int
  | 0 => 0
  | 1 => 0
  | i + 2 => (sampleAt ticks (i + 2) - sampleAt ticks (i + 1)).tdiv 1000000

/-- The two stated notifications of tick `k + 1`: `BEFORE(c_{k+1}, d_k)`, `AFTER(c_{k+1}, d_{k+1})`. -/
def specPair (ticks : List Tick) (k : Nat) : List TickEvent :=
  [{ time := EventTime.EVENT_TIME_BEFORE,
     args := { delta_time_ms := specDelta ticks k, tick_count := counterAt ticks (k + 1) } },
   { time := EventTime.EVENT_TIME_AFTER,
     args := { delta_time_ms := specDelta ticks (k + 1), tick_count := counterAt ticks (k + 1) } }]

/-- The stated notification list of a run of `N` ticks:
`BEFORE(c_1, d_0), AFTER(c_1, d_1), ..., BEFORE(c_N, d_{N-1}), AFTER(c_N, d_N)`. -/
def specNotifications (ticks : List Tick) : List TickEvent :=
  (List.range ticks.length).flatMap (specPair ticks)

/-! ## Basic facts about the dispatchers -/

theorem before_eq (c : Nat) (s : State) :
    tick_event_before_dispatcher c s =
      (s, { time := EventTime.EVENT_TIME_BEFORE,
            args := { delta_time_ms := s.tick_duration, tick_count := c } }) := rfl

theorem after_eq_of_first (c : Nat) (t : Int) (s : State) (h : s.first_tick = true) :
    tick_event_after_dispatcher c t s =
      ({ s with first_tick := false, last_tick := t },
        { time := EventTime.EVENT_TIME_AFTER,
          args := { delta_time_ms := s.tick_duration, tick_count := c } }) := by
  simp [tick_event_after_dispatcher, h]

theorem after_eq_of_not_first (c : Nat) (t : Int) (s : State) (h : s.first_tick = false) :
    tick_event_after_dispatcher c t s =
      ({ s with tick_duration := duration_cast_ms (t - s.last_tick), last_tick := t },
        { time := EventTime.EVENT_TIME_AFTER,
          args := { delta_time_ms := duration_cast_ms (t - s.last_tick), tick_count := c } }) := by
  simp [tick_event_after_dispatcher, h]

theorem after_first_tick (c : Nat) (t : Int) (s : State) :
    (tick_event_after_dispatcher c t s).1.first_tick = false := by
  cases h : s.first_tick
  · rw [after_eq_of_not_first c t s h]; exact h
  · rw [after_eq_of_first c t s h]

theorem after_last_tick (c : Nat) (t : Int) (s : State) :
    (tick_event_after_dispatcher c t s).1.last_tick = t := by
  cases h : s.first_tick
  · rw [after_eq_of_not_first c t s h]
  · rw [after_eq_of_first c t s h]

theorem after_event (c : Nat) (t : Int) (s : State) :
    (tick_event_after_dispatcher c t s).2 =
      { time := EventTime.EVENT_TIME_AFTER,
        args := { delta_time_ms := (tick_event_after_dispatcher c t s).1.tick_duration,
                  tick_count := c } } := by
  cases h : s.first_tick
  · rw [after_eq_of_not_first c t s h]
  · rw [after_eq_of_first c t s h]

theorem runCalls_nil (s : State) : runCalls [] s = (s, []) := rfl

theorem runCalls_cons (c : Call) (cs : List Call) (s : State) :
    runCalls (c :: cs) s =
      ((runCalls cs (c.exec s).1).1, (c.exec s).2 :: (runCalls cs (c.exec s).1).2) := rfl

theorem runCalls_append (as bs : List Call) (s : State) :
    runCalls (as ++ bs) s =
      ((runCalls bs (runCalls as s).1).1, (runCalls as s).2 ++ (runCalls bs (runCalls as s).1).2) := by
  induction as generalizing s with
  | nil => simp [runCalls_nil]
  | cons a as ih => simp [runCalls_cons, ih]

theorem runCalls_before_state (bs : List Nat) (s : State) :
    (runCalls (bs.map Call.before) s).1 = s := by
  induction bs with
  | nil => rfl
  | cons b bs ih => simpa [runCalls_cons, Call.exec, before_eq] using ih

theorem runCalls_before_events (bs : List Nat) (s : State) :
    (runCalls (bs.map Call.before) s).2 =
      bs.map fun b => { time := EventTime.EVENT_TIME_BEFORE,
                        args := { delta_time_ms := s.tick_duration, tick_count := b } } := by
  induction bs with
  | nil => rfl
  | cons b bs ih => simpa [runCalls_cons, Call.exec, before_eq] using ih

theorem duration_cast_ms_nonneg {d : Int} (h : 0 ≤ d) : 0 ≤ duration_cast_ms d :=
  Int.tdiv_nonneg h (by decide)

theorem duration_cast_ms_bounds {d : Int} (h : 0 ≤ d) :
    duration_cast_ms d * 1000000 ≤ d ∧ d < (duration_cast_ms d + 1) * 1000000 := by
  unfold duration_cast_ms nsPerMs
  rw [Int.tdiv_eq_ediv h (by decide)]
  constructor
  · exact Int.ediv_mul_le d (by decide)
  · exact Int.lt_ediv_add_one_mul_self d (by decide)

theorem runCalls_first_tick (cs : List Call) (s : State) :
    (runCalls cs s).1.first_tick = (s.first_tick && cs.all fun c => !c.isAfter) := by
  induction cs generalizing s with
  | nil => simp [runCalls_nil]
  | cons c cs ih =>
    rw [runCalls_cons, ih]
    cases c with
    | before n => simp [Call.exec, before_eq, Call.isAfter]
    | after n t => simp [Call.exec, after_first_tick, Call.isAfter]

theorem runCalls_tick_duration_of_first (cs : List Call) (s : State)
    (h : (runCalls cs s).1.first_tick = true) :
    (runCalls cs s).1.tick_duration = s.tick_duration := by
  induction cs generalizing s with
  | nil => rfl
  | cons c cs ih =>
    rw [runCalls_cons] at h ⊢
    cases c with
    | before n => exact ih _ h
    | after n t =>
      rw [runCalls_first_tick] at h
      simp [Call.exec, after_first_tick] at h

/-! ## The first-tick flag (C10) -/

/-- C10: from an initial timing state, `first_tick` is true after a sequence of dispatcher calls
if and only if the sequence has no AFTER call; a BEFORE call never changes it, an AFTER call
always leaves it false, and once false it stays false. -/
theorem first_tick_iff_no_after_call (s0 : State) (cs : List Call) (h0 : CoreInitial s0) :
    ((runCalls cs s0).1.first_tick = true ↔ ∀ c ∈ cs, c.isAfter = false) ∧
    (∀ (s : State) (n : Nat), (tick_event_before_dispatcher n s).1.first_tick = s.first_tick) ∧
    (∀ (s : State) (n : Nat) (t : Int), (tick_event_after_dispatcher n t s).1.first_tick = false) ∧
    (∀ (s : State) (ds : List Call), s.first_tick = false →
      (runCalls ds s).1.first_tick = false) := by
  refine ⟨?_, fun s n => rfl, fun s n t => after_first_tick n t s, ?_⟩
  · rw [runCalls_first_tick, h0.1]
    simp
  · intro s ds hs
    rw [runCalls_first_tick, hs]
    rfl

/-- C10 at concrete inputs: three BEFORE calls keep the flag, a run with one AFTER call among
BEFORE calls clears it. -/
theorem first_tick_iff_no_after_call_witness :
    CoreInitial State.initial ∧
    (runCalls [Call.before 1, Call.before 2, Call.before 3] State.initial).1.first_tick = true ∧
    (runCalls [Call.before 1, Call.after 1 5000000, Call.before 2] State.initial).1.first_tick
      = false :=
  ⟨by decide,
    ((first_tick_iff_no_after_call State.initial
        [Call.before 1, Call.before 2, Call.before 3] (by decide)).1).2 (by decide),
    by
      have h := (first_tick_iff_no_after_call State.initial
        [Call.before 1, Call.after 1 5000000, Call.before 2] (by decide)).1
      cases hf : (runCalls [Call.before 1, Call.after 1 5000000, Call.before 2]
          State.initial).1.first_tick
      · rfl
      · exact absurd (h.1 hf (Call.after 1 5000000) (by simp)) (by decide)⟩

/-! ## The duration between two AFTER calls (C2) -/

/-- C2: for two consecutive AFTER calls with clock samples `t ≤ t2`, from any state and with
any BEFORE calls in between, the second AFTER event carries `t2 - t` in whole milliseconds,
truncated: it is the integer `d` with `d * 1000000 ≤ t2 - t < (d + 1) * 1000000`, and `0 ≤ d`. -/
theorem after_delta_is_truncated_difference (s : State) (c : Nat) (t : Int) (bs : List Nat)
    (c2 : Nat) (t2 : Int) (h : t ≤ t2) :
    (runCalls ([Call.after c t] ++ bs.map Call.before ++ [Call.after c2 t2]) s).2.getLast? =
      some { time := EventTime.EVENT_TIME_AFTER,
             args := { delta_time_ms := (t2 - t).tdiv 1000000, tick_count := c2 } } ∧
    0 ≤ (t2 - t).tdiv 1000000 ∧
    (t2 - t).tdiv 1000000 * 1000000 ≤ t2 - t ∧
    t2 - t < ((t2 - t).tdiv 1000000 + 1) * 1000000 := by
  have hd : 0 ≤ t2 - t := by omega
  refine ⟨?_, duration_cast_ms_nonneg hd, duration_cast_ms_bounds hd⟩
  rw [runCalls_append, runCalls_append]
  simp only [runCalls_before_state, runCalls_cons, runCalls_nil, Call.exec]
  rw [after_eq_of_not_first c2 t2 _ (after_first_tick c t s), after_last_tick]
  simp only [List.singleton_append, duration_cast_ms, nsPerMs]
  rw [List.getLast?_append]
  rfl

/-- C2 at concrete inputs: samples `900000 ns` and `1100000 ns` (0.9 ms and 1.1 ms) with two
BEFORE calls in between give delta `0`, the truncated difference, although the truncated
timestamps differ by `1`. -/
theorem after_delta_is_truncated_difference_witness :
    (900000 : Int) ≤ 1100000 ∧
    (runCalls ([Call.after 7 900000] ++ [8, 8].map Call.before ++ [Call.after 8 1100000])
        State.initial).2.getLast? =
      some { time := EventTime.EVENT_TIME_AFTER,
             args := { delta_time_ms := 0, tick_count := 8 } } ∧
    (1100000 : Int).tdiv 1000000 - (900000 : Int).tdiv 1000000 = 1 :=
  ⟨by decide,
    (after_delta_is_truncated_difference State.initial 7 900000 [8, 8] 8 1100000
      (by decide)).1.trans (by decide),
    by decide⟩

/-! ## The first AFTER call (C3) -/

/-- C3: in a state reached from an initial timing state in which `first_tick` is still true,
whatever `last_tick` holds and whatever the clock returns, the AFTER routine leaves
`tick_duration = 0` and `first_tick = false`, stores the sample in `last_tick` and dispatches
an AFTER event with `delta_time_ms = 0`; hence after any number of BEFORE calls the first AFTER
event reports `0`, and in every run the first AFTER event dispatched reports `0`. -/
theorem first_after_reports_zero (s0 : State) (cs : List Call) (h0 : CoreInitial s0)
    (hf : (runCalls cs s0).1.first_tick = true) :
    (∀ (l : Int) (c : Nat) (t : Int),
      (tick_event_after_dispatcher c t ((runCalls cs s0).1.setLastTick l)).1.tick_duration = 0 ∧
      (tick_event_after_dispatcher c t ((runCalls cs s0).1.setLastTick l)).1.first_tick = false ∧
      (tick_event_after_dispatcher c t ((runCalls cs s0).1.setLastTick l)).1.last_tick = t ∧
      (tick_event_after_dispatcher c t ((runCalls cs s0).1.setLastTick l)).2 =
        { time := EventTime.EVENT_TIME_AFTER,
          args := { delta_time_ms := 0, tick_count := c } }) ∧
    (∀ (bs : List Nat) (c : Nat) (t : Int),
      (runCalls (bs.map Call.before ++ [Call.after c t]) s0).2.getLast? =
        some { time := EventTime.EVENT_TIME_AFTER,
               args := { delta_time_ms := 0, tick_count := c } }) ∧
    (∀ (ds : List Call) (e : TickEvent),
      (runCalls ds s0).2.find? (fun e => e.time = EventTime.EVENT_TIME_AFTER) = some e →
        e.args.delta_time_ms = 0) := by
  have hd : (runCalls cs s0).1.tick_duration = 0 :=
    (runCalls_tick_duration_of_first cs s0 hf).trans h0.2
  refine ⟨?_, ?_, ?_⟩
  · intro l c t
    have hf2 : ((runCalls cs s0).1.setLastTick l).first_tick = true := hf
    rw [after_eq_of_first c t _ hf2]
    exact ⟨hd, rfl, rfl, by simp [State.setLastTick, hd]⟩
  · intro bs c t
    rw [runCalls_append]
    simp only [runCalls_before_state, runCalls_cons, runCalls_nil, Call.exec]
    rw [after_eq_of_first c t s0 h0.1]
    simp [h0.2]
  · intro ds
    have key : ∀ (ds : List Call) (s : State), CoreInitial s → ∀ e : TickEvent,
        (runCalls ds s).2.find? (fun e => e.time = EventTime.EVENT_TIME_AFTER) = some e →
          e.args.delta_time_ms = 0 := by
      intro ds
      induction ds with
      | nil => intro s _ e he; simp [runCalls_nil] at he
      | cons d ds ih =>
        intro s hs e he
        rw [runCalls_cons] at he
        cases d with
        | before n =>
          simp only [Call.exec, before_eq, List.find?_cons] at he
          exact ih s hs e (by simpa using he)
        | after n t =>
          simp only [Call.exec, after_eq_of_first n t s hs.1, List.find?_cons] at he
          simp at he
          rw [← he]
          exact hs.2
    exact key ds s0 h0

/-- C3 at concrete inputs: after two BEFORE calls the flag is still set, and an AFTER call with
`last_tick` overwritten by `123456789` and clock sample `42000000` reports delta `0`. -/
theorem first_after_reports_zero_witness :
    CoreInitial State.initial ∧
    (runCalls [Call.before 1, Call.before 1] State.initial).1.first_tick = true ∧
    (tick_event_after_dispatcher 1 42000000
        ((runCalls [Call.before 1, Call.before 1] State.initial).1.setLastTick 123456789)).2 =
      { time := EventTime.EVENT_TIME_AFTER, args := { delta_time_ms := 0, tick_count := 1 } } :=
  ⟨by decide, by decide,
    ((first_after_reports_zero State.initial [Call.before 1, Call.before 1] (by decide)
      (by decide)).1 123456789 1 42000000).2.2.2⟩

/-! ## The stale duration of BEFORE events (C4) -/

theorem lastAfterDelta_concat (acc : List TickEvent) (e : TickEvent) :
    lastAfterDelta (acc ++ [e]) =
      if e.time = EventTime.EVENT_TIME_AFTER then e.args.delta_time_ms
      else lastAfterDelta acc := by
  unfold lastAfterDelta
  by_cases h : e.time = EventTime.EVENT_TIME_AFTER
  · simp [List.reverse_append, List.find?_cons, h]
  · simp [List.reverse_append, List.find?_cons, h]

theorem exec_tick_duration (c : Call) (s : State) (acc : List TickEvent)
    (h : s.tick_duration = lastAfterDelta acc) :
    (c.exec s).1.tick_duration = lastAfterDelta (acc ++ [(c.exec s).2]) := by
  rw [lastAfterDelta_concat]
  cases c with
  | before n => simpa [Call.exec, before_eq] using h
  | after n t => simp [Call.exec, after_event n t s]

theorem runCalls_before_stale (cs : List Call) :
    ∀ (s : State) (acc : List TickEvent), s.tick_duration = lastAfterDelta acc →
      ∀ (i : Nat) (e : TickEvent), (runCalls cs s).2[i]? = some e →
        e.time = EventTime.EVENT_TIME_BEFORE →
          e.args.delta_time_ms = lastAfterDelta (acc ++ (runCalls cs s).2.take i) := by
  induction cs with
  | nil => intro s acc _ i e he; simp [runCalls_nil] at he
  | cons c cs ih =>
    intro s acc hs i e he ht
    rw [runCalls_cons] at he ⊢
    cases i with
    | zero =>
      simp only [List.getElem?_cons_zero, Option.some.injEq] at he
      subst he
      cases c with
      | before n => simpa [Call.exec, before_eq] using hs
      | after n t => simp [Call.exec, after_event n t s] at ht
    | succ i =>
      simp only [List.getElem?_cons_succ] at he
      have := ih (c.exec s).1 (acc ++ [(c.exec s).2]) (exec_tick_duration c s acc hs) i e he ht
      simpa using this

/-- C4: in every sequence of dispatcher calls from an initial timing state, each BEFORE event
carries the `delta_time_ms` of the most recent AFTER event dispatched before it, and `0` if
there is none; a BEFORE event that directly follows an AFTER event repeats its duration; the
BEFORE routine changes no static and reports the stored `tick_duration`. -/
theorem before_reports_last_after_delta (s0 : State) (cs : List Call) (h0 : CoreInitial s0) :
    (∀ (i : Nat) (e : TickEvent), (runCalls cs s0).2[i]? = some e →
      e.time = EventTime.EVENT_TIME_BEFORE →
        e.args.delta_time_ms = lastAfterDelta ((runCalls cs s0).2.take i)) ∧
    (∀ (i : Nat) (a b : TickEvent), (runCalls cs s0).2[i]? = some a →
      (runCalls cs s0).2[i + 1]? = some b →
        a.time = EventTime.EVENT_TIME_AFTER → b.time = EventTime.EVENT_TIME_BEFORE →
          b.args.delta_time_ms = a.args.delta_time_ms) ∧
    (∀ (s : State) (n : Nat),
      tick_event_before_dispatcher n s =
        (s, { time := EventTime.EVENT_TIME_BEFORE,
              args := { delta_time_ms := s.tick_duration, tick_count := n } })) := by
  have main : ∀ (i : Nat) (e : TickEvent), (runCalls cs s0).2[i]? = some e →
      e.time = EventTime.EVENT_TIME_BEFORE →
        e.args.delta_time_ms = lastAfterDelta ((runCalls cs s0).2.take i) := by
    intro i e he ht
    have := runCalls_before_stale cs s0 [] (by simpa [lastAfterDelta] using h0.2) i e he ht
    simpa using this
  refine ⟨main, ?_, fun s n => rfl⟩
  intro i a b ha hb hta htb
  rw [main (i + 1) b hb htb, List.take_succ, ha]
  simp [lastAfterDelta_concat, hta]

/-- C4 at concrete inputs: in the run BEFORE, AFTER at 0 ms, BEFORE, AFTER at 16 ms, BEFORE,
BEFORE, the last event is a BEFORE event carrying `16`, the duration of the second AFTER. -/
theorem before_reports_last_after_delta_witness :
    CoreInitial State.initial ∧
    (runCalls [Call.before 1, Call.after 1 0, Call.before 2, Call.after 2 16000000,
        Call.before 3, Call.before 3] State.initial).2[5]? =
      some { time := EventTime.EVENT_TIME_BEFORE,
             args := { delta_time_ms := 16, tick_count := 3 } } ∧
    (16 : Int) = lastAfterDelta ((runCalls [Call.before 1, Call.after 1 0, Call.before 2,
        Call.after 2 16000000, Call.before 3, Call.before 3] State.initial).2.take 5) :=
  ⟨by decide, by decide,
    (before_reports_last_after_delta State.initial
      [Call.before 1, Call.after 1 0, Call.before 2, Call.after 2 16000000,
        Call.before 3, Call.before 3] (by decide)).1 5
      { time := EventTime.EVENT_TIME_BEFORE, args := { delta_time_ms := 16, tick_count := 3 } }
      (by decide) rfl⟩

/-! ## The notifications of a run of ticks (C1) -/

theorem tickCalls_append (as bs : List Tick) :
    tickCalls (as ++ bs) = tickCalls as ++ tickCalls bs := by
  induction as with
  | nil => rfl
  | cons a as ih => simp [tickCalls, ih]

theorem sampleAt_append_left (ks : List Tick) (x : Tick) (i : Nat) (h1 : 1 ≤ i)
    (h2 : i ≤ ks.length) : sampleAt (ks ++ [x]) i = sampleAt ks i := by
  unfold sampleAt
  rw [List.getD_append _ _ _ _ (by omega)]

theorem counterAt_append_left (ks : List Tick) (x : Tick) (i : Nat) (h1 : 1 ≤ i)
    (h2 : i ≤ ks.length) : counterAt (ks ++ [x]) i = counterAt ks i := by
  unfold counterAt
  rw [List.getD_append _ _ _ _ (by omega)]

theorem sampleAt_append_last (ks : List Tick) (x : Tick) :
    sampleAt (ks ++ [x]) (ks.length + 1) = x.2 := by
  unfold sampleAt
  rw [List.getD_append_right _ _ _ _ (by omega)]
  simp

theorem counterAt_append_last (ks : List Tick) (x : Tick) :
    counterAt (ks ++ [x]) (ks.length + 1) = x.1 := by
  unfold counterAt
  rw [List.getD_append_right _ _ _ _ (by omega)]
  simp

theorem specDelta_append_left (ks : List Tick) (x : Tick) (i : Nat) (h : i ≤ ks.length) :
    specDelta (ks ++ [x]) i = specDelta ks i := by
  match i, h with
  | 0, _ => rfl
  | 1, _ => rfl
  | i + 2, h =>
    simp only [specDelta]
    rw [sampleAt_append_left ks x (i + 2) (by omega) h,
      sampleAt_append_left ks x (i + 1) (by omega) (by omega)]

theorem specPair_append_left (ks : List Tick) (x : Tick) (k : Nat) (h : k < ks.length) :
    specPair (ks ++ [x]) k = specPair ks k := by
  unfold specPair
  rw [specDelta_append_left ks x k (by omega), specDelta_append_left ks x (k + 1) (by omega),
    counterAt_append_left ks x (k + 1) (by omega) (by omega)]

theorem flatMap_specPair_append_left (ks : List Tick) (x : Tick) (n : Nat) (h : n ≤ ks.length) :
    (List.range n).flatMap (specPair (ks ++ [x])) = (List.range n).flatMap (specPair ks) := by
  induction n with
  | zero => rfl
  | succ n ih =>
    rw [List.range_succ, List.flatMap_append, List.flatMap_append, ih (by omega)]
    simp [specPair_append_left ks x n (by omega)]

theorem specNotifications_concat (ks : List Tick) (x : Tick) :
    specNotifications (ks ++ [x]) = specNotifications ks ++ specPair (ks ++ [x]) ks.length := by
  unfold specNotifications
  rw [List.length_append, List.length_singleton, List.range_succ, List.flatMap_append,
    flatMap_specPair_append_left ks x ks.length (Nat.le_refl _)]
  simp

/-- The statics after a run of ticks from an initial timing state, and the events of the run. -/
theorem runCalls_tickCalls (ticks : List Tick) (s0 : State) (h0 : CoreInitial s0) :
    (runCalls (tickCalls ticks) s0).2 = specNotifications ticks ∧
    (runCalls (tickCalls ticks) s0).1.tick_duration = specDelta ticks ticks.length ∧
    (runCalls (tickCalls ticks) s0).1.first_tick = ticks.isEmpty ∧
    (ticks ≠ [] → (runCalls (tickCalls ticks) s0).1.last_tick = sampleAt ticks ticks.length) := by
  induction ticks using List.reverseRecOn with
  | nil => exact ⟨rfl, h0.2, h0.1, fun h => absurd rfl h⟩
  | append_singleton ks x ih =>
    obtain ⟨ihOut, ihDur, ihFirst, ihLast⟩ := ih
    have hrun : runCalls (tickCalls (ks ++ [x])) s0 =
        ((tick_event_after_dispatcher x.1 x.2 (runCalls (tickCalls ks) s0).1).1,
          (runCalls (tickCalls ks) s0).2 ++
            [{ time := EventTime.EVENT_TIME_BEFORE,
               args := { delta_time_ms := (runCalls (tickCalls ks) s0).1.tick_duration,
                         tick_count := x.1 } },
             (tick_event_after_dispatcher x.1 x.2 (runCalls (tickCalls ks) s0).1).2]) := by
      rw [tickCalls_append, runCalls_append]
      simp [tickCalls, Tick.calls, runCalls_cons, runCalls_nil, Call.exec, before_eq]
    have hdelta : (tick_event_after_dispatcher x.1 x.2
        (runCalls (tickCalls ks) s0).1).1.tick_duration =
          specDelta (ks ++ [x]) (ks.length + 1) := by
      cases ks with
      | nil =>
        have hf : (runCalls (tickCalls []) s0).1.first_tick = true := by simpa using ihFirst
        rw [after_eq_of_first _ _ _ hf]
        simpa [specDelta] using ihDur
      | cons k ks =>
        have hf : (runCalls (tickCalls (k :: ks)) s0).1.first_tick = false := by
          simpa using ihFirst
        rw [after_eq_of_not_first _ _ _ hf]
        simp only [List.length_cons, specDelta]
        rw [ihLast (by simp), duration_cast_ms, nsPerMs]
        have h1 := sampleAt_append_last (k :: ks) x
        have h2 := sampleAt_append_left (k :: ks) x (ks.length + 1) (by omega) (by simp)
        simp only [List.length_cons] at h1
        rw [h1, h2]
        rfl
    refine ⟨?_, ?_, ?_, ?_⟩
    · rw [hrun, specNotifications_concat, ihOut]
      simp only [specPair, after_event, hdelta, ihDur, counterAt_append_last,
        specDelta_append_left ks x ks.length (Nat.le_refl _)]
    · rw [hrun]
      simpa using hdelta
    · rw [hrun]
      simp [after_first_tick]
    · intro _
      rw [hrun]
      simp [after_last_tick, sampleAt_append_last]

theorem flatMap_specPair_length (ticks : List Tick) (n : Nat) :
    ((List.range n).flatMap (specPair ticks)).length = 2 * n := by
  induction n with
  | zero => rfl
  | succ n ih =>
    rw [List.range_succ, List.flatMap_append, List.length_append, ih]
    simp [specPair]
    omega

theorem flatMap_specPair_getElem? (ticks : List Tick) (n k : Nat) (h : k < n) :
    ((List.range n).flatMap (specPair ticks))[2 * k]? =
      some { time := EventTime.EVENT_TIME_BEFORE,
             args := { delta_time_ms := specDelta ticks k,
                       tick_count := counterAt ticks (k + 1) } } ∧
    ((List.range n).flatMap (specPair ticks))[2 * k + 1]? =
      some { time := EventTime.EVENT_TIME_AFTER,
             args := { delta_time_ms := specDelta ticks (k + 1),
                       tick_count := counterAt ticks (k + 1) } } := by
  induction n with
  | zero => omega
  | succ n ih =>
    rw [List.range_succ, List.flatMap_append]
    by_cases hk : k < n
    · have hl := flatMap_specPair_length ticks n
      rw [List.getElem?_append_left (by omega), List.getElem?_append_left (by omega)]
      exact ih hk
    · have hkn : k = n := by omega
      subst hkn
      have hl := flatMap_specPair_length ticks k
      rw [List.getElem?_append_right (by omega), List.getElem?_append_right (by omega), hl]
      have e1 : 2 * k - 2 * k = 0 := by omega
      have e2 : 2 * k + 1 - 2 * k = 1 := by omega
      rw [e1, e2]
      simp [specPair]

theorem flatMap_specPair_countP (ticks : List Tick) (n : Nat) :
    ((List.range n).flatMap (specPair ticks)).countP
        (fun e => e.time = EventTime.EVENT_TIME_BEFORE) = n ∧
    ((List.range n).flatMap (specPair ticks)).countP
        (fun e => e.time = EventTime.EVENT_TIME_AFTER) = n := by
  induction n with
  | zero => exact ⟨rfl, rfl⟩
  | succ n ih =>
    rw [List.range_succ, List.flatMap_append, List.countP_append, List.countP_append, ih.1, ih.2]
    simp [specPair, List.countP_cons]

theorem sampleAt_le_succ (ticks : List Tick) (hm : SamplesMonotone ticks) (m : Nat)
    (h : m + 2 ≤ ticks.length) : sampleAt ticks (m + 1) ≤ sampleAt ticks (m + 2) := by
  unfold SamplesMonotone at hm
  rw [List.pairwise_iff_getElem] at hm
  have := hm m (m + 1) (by simp; omega) (by simp; omega) (by omega)
  unfold sampleAt
  rw [List.getD_eq_getElem _ _ (by omega : m + 1 - 1 < ticks.length),
    List.getD_eq_getElem _ _ (by omega : m + 2 - 1 < ticks.length)]
  simpa using this

theorem specDelta_nonneg (ticks : List Tick) (hm : SamplesMonotone ticks) (i : Nat)
    (h : i ≤ ticks.length) : 0 ≤ specDelta ticks i := by
  match i, h with
  | 0, _ => exact Int.le_refl 0
  | 1, _ => exact Int.le_refl 0
  | i + 2, h =>
    have := sampleAt_le_succ ticks hm i h
    exact Int.tdiv_nonneg (by omega) (by decide)

theorem specDelta_eq_zero_iff (ticks : List Tick) (hm : SamplesMonotone ticks) (i : Nat)
    (h : i ≤ ticks.length) :
    specDelta ticks i = 0 ↔ i ≤ 1 ∨ sampleAt ticks i - sampleAt ticks (i - 1) < 1000000 := by
  match i, h with
  | 0, _ => simp [specDelta]
  | 1, _ => simp [specDelta]
  | i + 2, h =>
    have hle := sampleAt_le_succ ticks hm i h
    have hnn : 0 ≤ sampleAt ticks (i + 2) - sampleAt ticks (i + 1) := by omega
    have hb := duration_cast_ms_bounds hnn
    simp only [duration_cast_ms, nsPerMs] at hb
    have e1 : i + 2 - 1 = i + 1 := by omega
    simp only [specDelta, e1]
    constructor
    · intro hz
      right
      rw [hz] at hb
      omega
    · rintro (h1 | h2)
      · omega
      · exact Int.tdiv_eq_zero_of_lt hnn h2

theorem specNotifications_getElem?_delta (ticks : List Tick) (j : Nat) (e : TickEvent)
    (he : (specNotifications ticks)[j]? = some e) :
    e.args.delta_time_ms = specDelta ticks ((j + 1) / 2) ∧ (j + 1) / 2 ≤ ticks.length := by
  have hlen : j < (specNotifications ticks).length := by
    rcases Nat.lt_or_ge j (specNotifications ticks).length with h | h
    · exact h
    · rw [List.getElem?_eq_none h] at he
      exact absurd he (by simp)
  have hl : (specNotifications ticks).length = 2 * ticks.length :=
    flatMap_specPair_length ticks _
  have hk : j / 2 < ticks.length := by omega
  have hidx := flatMap_specPair_getElem? ticks ticks.length (j / 2) hk
  rcases Nat.mod_two_eq_zero_or_one j with hj | hj
  · have e1 : 2 * (j / 2) = j := by omega
    have e2 : (j + 1) / 2 = j / 2 := by omega
    rw [e1] at hidx
    have h1 := hidx.1
    unfold specNotifications at he
    rw [he] at h1
    simp only [Option.some.injEq] at h1
    rw [h1, e2]
    exact ⟨rfl, by omega⟩
  · have e1 : 2 * (j / 2) + 1 = j := by omega
    have e2 : (j + 1) / 2 = j / 2 + 1 := by omega
    rw [e1] at hidx
    have h1 := hidx.2
    unfold specNotifications at he
    rw [he] at h1
    simp only [Option.some.injEq] at h1
    rw [h1, e2]
    exact ⟨rfl, by omega⟩

/-- C1: from an initial timing state, a run of `N ≥ 1` ticks with non-decreasing clock samples
dispatches exactly the list `BEFORE(c_1, d_0), AFTER(c_1, d_1), ..., BEFORE(c_N, d_{N-1}),
AFTER(c_N, d_N)` with `d_0 = d_1 = 0` and `d_i` the truncated millisecond difference
`t_i - t_{i-1}`: `2N` events, `N` BEFORE and `N` AFTER, alternating in tick order, none with a
negative duration. -/
theorem tick_run_notifications (s0 : State) (ticks : List Tick) (h0 : CoreInitial s0)
    (_hN : 1 ≤ ticks.length) (hm : SamplesMonotone ticks) :
    (runCalls (tickCalls ticks) s0).2 = specNotifications ticks ∧
    (runCalls (tickCalls ticks) s0).2.length = 2 * ticks.length ∧
    (∀ k, k < ticks.length →
      (runCalls (tickCalls ticks) s0).2[2 * k]? =
        some { time := EventTime.EVENT_TIME_BEFORE,
               args := { delta_time_ms := specDelta ticks k,
                         tick_count := counterAt ticks (k + 1) } } ∧
      (runCalls (tickCalls ticks) s0).2[2 * k + 1]? =
        some { time := EventTime.EVENT_TIME_AFTER,
               args := { delta_time_ms := specDelta ticks (k + 1),
                         tick_count := counterAt ticks (k + 1) } }) ∧
    (runCalls (tickCalls ticks) s0).2.countP
        (fun e => e.time = EventTime.EVENT_TIME_BEFORE) = ticks.length ∧
    (runCalls (tickCalls ticks) s0).2.countP
        (fun e => e.time = EventTime.EVENT_TIME_AFTER) = ticks.length ∧
    (∀ e ∈ (runCalls (tickCalls ticks) s0).2, 0 ≤ e.args.delta_time_ms) := by
  rw [(runCalls_tickCalls ticks s0 h0).1]
  refine ⟨rfl, flatMap_specPair_length ticks _,
    fun k hk => flatMap_specPair_getElem? ticks _ k hk,
    (flatMap_specPair_countP ticks _).1, (flatMap_specPair_countP ticks _).2, ?_⟩
  intro e he
  obtain ⟨j, hj⟩ := List.mem_iff_getElem?.1 he
  obtain ⟨hd, hi⟩ := specNotifications_getElem?_delta ticks j e hj
  rw [hd]
  exact specDelta_nonneg ticks hm _ hi

/-- C1 at the stated scenario: AFTER samples at 0 ms, 16 ms, 33 ms with counters 1, 2, 3 give
BEFORE(1,0) AFTER(1,0) BEFORE(2,0) AFTER(2,16) BEFORE(3,16) AFTER(3,17). -/
theorem tick_run_notifications_witness :
    CoreInitial State.initial ∧ 1 ≤ [((1 : Nat), (0 : Int)), (2, 16000000), (3, 33000000)].length ∧
    SamplesMonotone [(1, 0), (2, 16000000), (3, 33000000)] ∧
    (runCalls (tickCalls [(1, 0), (2, 16000000), (3, 33000000)]) State.initial).2 =
      [{ time := EventTime.EVENT_TIME_BEFORE, args := { delta_time_ms := 0, tick_count := 1 } },
       { time := EventTime.EVENT_TIME_AFTER, args := { delta_time_ms := 0, tick_count := 1 } },
       { time := EventTime.EVENT_TIME_BEFORE, args := { delta_time_ms := 0, tick_count := 2 } },
       { time := EventTime.EVENT_TIME_AFTER, args := { delta_time_ms := 16, tick_count := 2 } },
       { time := EventTime.EVENT_TIME_BEFORE, args := { delta_time_ms := 16, tick_count := 3 } },
       { time := EventTime.EVENT_TIME_AFTER, args := { delta_time_ms := 17, tick_count := 3 } }] :=
  ⟨by decide, by decide, by decide,
    (tick_run_notifications State.initial [(1, 0), (2, 16000000), (3, 33000000)]
      (by decide) (by decide) (by decide)).1.trans (by decide)⟩

/-! ## Sign and zeros of the reported duration (C5) -/

/-- C5 as stated fails. In the run with samples 0 ms, 16 ms, 33 ms the third event is the BEFORE
event of tick 2 and carries delta `0`; in the run with samples 0 ms and 0.5 ms the AFTER event
of tick 2 carries delta `0`. -/
theorem zero_delta_after_first_tick_counterexample :
    (SamplesMonotone [(1, 0), (2, 16000000), (3, 33000000)] ∧
      (runCalls (tickCalls [(1, 0), (2, 16000000), (3, 33000000)]) State.initial).2[2]? =
        some { time := EventTime.EVENT_TIME_BEFORE,
               args := { delta_time_ms := 0, tick_count := 2 } }) ∧
    (SamplesMonotone [(1, 0), (2, 500000)] ∧
      (runCalls (tickCalls [(1, 0), (2, 500000)]) State.initial).2[3]? =
        some { time := EventTime.EVENT_TIME_AFTER,
               args := { delta_time_ms := 0, tick_count := 2 } }) := by
  decide

/-- C5 amended: from an initial timing state and with non-decreasing clock samples, every
dispatched event has `delta_time_ms ≥ 0`, and the event at position `j` (counted from 0; it
reports the interval ending at the AFTER sample of tick `i = (j + 1) / 2`) has
`delta_time_ms = 0` exactly when it is one of the first three events (BEFORE and AFTER of
tick 1, BEFORE of tick 2) or the samples `t_{i-1}` and `t_i` are less than one millisecond
apart. -/
theorem delta_nonneg_and_zero_cases (s0 : State) (ticks : List Tick) (h0 : CoreInitial s0)
    (hm : SamplesMonotone ticks) (j : Nat) (e : TickEvent)
    (he : (runCalls (tickCalls ticks) s0).2[j]? = some e) :
    0 ≤ e.args.delta_time_ms ∧
    (e.args.delta_time_ms = 0 ↔
      j ≤ 2 ∨ sampleAt ticks ((j + 1) / 2) - sampleAt ticks ((j + 1) / 2 - 1) < 1000000) := by
  rw [(runCalls_tickCalls ticks s0 h0).1] at he
  obtain ⟨hd, hi⟩ := specNotifications_getElem?_delta ticks j e he
  rw [hd]
  refine ⟨specDelta_nonneg ticks hm _ hi, ?_⟩
  rw [specDelta_eq_zero_iff ticks hm _ hi]
  have : (j + 1) / 2 ≤ 1 ↔ j ≤ 2 := by omega
  rw [this]

/-- C5 amended, at concrete inputs: with samples 0 ms, 16 ms, 16.4 ms the AFTER event of tick 3
(position 5) carries `0`, and the two samples it measures are less than a millisecond apart. -/
theorem delta_nonneg_and_zero_cases_witness :
    CoreInitial State.initial ∧ SamplesMonotone [(1, 0), (2, 16000000), (3, 16400000)] ∧
    (runCalls (tickCalls [(1, 0), (2, 16000000), (3, 16400000)]) State.initial).2[5]? =
      some { time := EventTime.EVENT_TIME_AFTER,
             args := { delta_time_ms := 0, tick_count := 3 } } ∧
    ((0 : Int) = 0 ↔ 5 ≤ 2 ∨
      sampleAt [(1, 0), (2, 16000000), (3, 16400000)] ((5 + 1) / 2) -
        sampleAt [(1, 0), (2, 16000000), (3, 16400000)] ((5 + 1) / 2 - 1) < 1000000) :=
  ⟨by decide, by decide, by decide,
    (delta_nonneg_and_zero_cases State.initial [(1, 0), (2, 16000000), (3, 16400000)]
      (by decide) (by decide) 5
      { time := EventTime.EVENT_TIME_AFTER, args := { delta_time_ms := 0, tick_count := 3 } }
      (by decide)).2⟩

/-! ## One-time activation (C6 to C9) -/

theorem init_of_enabled (env : Env) (s : State) (h : s.enabled = true) :
    init env s = (s, [], Except.ok ()) := by
  simp [init, h]

theorem init_not_found (env : Env) (s : State) (he : s.enabled = false)
    (hs : s.tick_event_sig = none) (hr : env.sig_get "on_tick" = none) :
    init env s =
      ({ s with enabled := true, tick_event_sig := some none },
        [Op.sig_get "on_tick"],
        Except.error "Could not find signature for tick event") := by
  simp [init, he, hs, hr]

theorem init_found (env : Env) (s : State) (a : Nat) (he : s.enabled = false)
    (hs : s.tick_event_sig = none) (hr : env.sig_get "on_tick" = some a) :
    init env s =
      ({ s with
          enabled := true
          tick_event_sig := some (some a)
          tick_event_after_chimera_hook :=
            { site := some (env.follow_jump a + 23, Routine.tick_event_after_dispatcher),
              hooked := true }
          tick_event_hook :=
            { site := some (a, Routine.tick_event_before_dispatcher), hooked := true } },
        [Op.sig_get "on_tick",
          Op.hook_initialize HookName.tick_event_after_chimera_hook (env.follow_jump a + 23)
            Routine.tick_event_after_dispatcher,
          Op.hook_hook HookName.tick_event_after_chimera_hook,
          Op.hook_initialize HookName.tick_event_hook a Routine.tick_event_before_dispatcher,
          Op.hook_hook HookName.tick_event_hook],
        Except.ok ()) := by
  simp [init, he, hs, hr, Hook.hook, Hook.initialize]

theorem init_enabled (env : Env) (s : State) : (init env s).1.enabled = true := by
  cases he : s.enabled
  · unfold init
    simp only [he, Bool.false_eq_true, if_false]
    split <;> rfl
  · rw [init_of_enabled env s he]
    exact he

theorem initTimes_of_enabled (env : Env) (n : Nat) (s : State) (h : s.enabled = true) :
    initTimes env n s = (s, List.replicate n ([], Except.ok ())) := by
  induction n with
  | zero => rfl
  | succ n ih =>
    simp [initTimes, init_of_enabled env s h, ih, List.replicate_succ]

theorem initTimes_succ (env : Env) (n : Nat) (s : State) :
    initTimes env (n + 1) s =
      ((init env s).1, (init env s).2 :: List.replicate n ([], Except.ok ())) := by
  simp [initTimes, initTimes_of_enabled env n _ (init_enabled env s)]

/-- C6: for every `n ≥ 1`, calling `init` `n` times from the not-yet-enabled statics with a
signature manager that finds "on_tick" leaves the statics of a single call; the first call makes
one lookup and initializes and hooks each of the two hooks once, and every later call returns
normally having made no lookup and no hook operation, so all `n` calls together make exactly
the collaborator calls of one. -/
theorem init_idempotent (env : Env) (s : State) (a : Nat) (n : Nat) (he : s.enabled = false)
    (hs : s.tick_event_sig = none) (hr : env.sig_get "on_tick" = some a) (hn : 1 ≤ n) :
    (initTimes env n s).1 = (init env s).1 ∧
    (initTimes env n s).2 = (init env s).2 :: List.replicate (n - 1) ([], Except.ok ()) ∧
    (initTimes env n s).2.flatMap Prod.fst =
      [Op.sig_get "on_tick",
        Op.hook_initialize HookName.tick_event_after_chimera_hook (env.follow_jump a + 23)
          Routine.tick_event_after_dispatcher,
        Op.hook_hook HookName.tick_event_after_chimera_hook,
        Op.hook_initialize HookName.tick_event_hook a Routine.tick_event_before_dispatcher,
        Op.hook_hook HookName.tick_event_hook] ∧
    (initTimes env n s).1.tick_event_hook.installed = true ∧
    (initTimes env n s).1.tick_event_after_chimera_hook.installed = true ∧
    (∀ (m : Nat) (r : List Op × Except String Unit),
      (initTimes env n s).2[m + 1]? = some r → r = ([], Except.ok ())) := by
  obtain ⟨k, rfl⟩ : ∃ k, n = k + 1 := ⟨n - 1, by omega⟩
  rw [initTimes_succ, init_found env s a he hs hr]
  refine ⟨rfl, rfl, ?_, rfl, rfl, ?_⟩
  · simp only [List.flatMap_cons]
    have hrep : ∀ k : Nat, (List.replicate k (([] : List Op), (Except.ok () : Except String Unit))).flatMap
        Prod.fst = [] := by
      intro k
      induction k with
      | zero => rfl
      | succ k ih => simp [List.replicate_succ, ih]
    rw [hrep]
    simp
  · intro m r hm
    simp only [List.getElem?_cons_succ] at hm
    have hmem : r ∈ List.replicate k (([] : List Op), (Except.ok () : Except String Unit)) :=
      List.mem_iff_getElem?.2 ⟨m, hm⟩
    exact (List.mem_replicate.1 hmem).2

/-- C6 at concrete inputs: three calls with a manager that resolves "on_tick" to `4198400` and a
`follow_jump` that returns its argument. -/
theorem init_idempotent_witness :
    State.initial.enabled = false ∧ State.initial.tick_event_sig = none ∧ 1 ≤ 3 ∧
    (initTimes { sig_get := fun _ => some 4198400, follow_jump := fun p => p } 3
        State.initial).1 =
      (init { sig_get := fun _ => some 4198400, follow_jump := fun p => p } State.initial).1 :=
  ⟨rfl, rfl, by decide,
    (init_idempotent { sig_get := fun _ => some 4198400, follow_jump := fun p => p }
      State.initial 4198400 3 rfl rfl rfl (by decide)).1⟩

/-- C7: a first call of `init` whose signature lookup finds nothing throws the error "Could not
find signature for tick event", leaves both hooks as they were and makes no hook operation (its
only collaborator call is the lookup); a first call whose lookup finds a signature returns
normally. -/
theorem init_throws_iff_not_found (env : Env) (s : State) (he : s.enabled = false)
    (hs : s.tick_event_sig = none) :
    (env.sig_get "on_tick" = none →
      (init env s).2.2 = Except.error "Could not find signature for tick event" ∧
      (init env s).2.1 = [Op.sig_get "on_tick"] ∧
      (init env s).1.tick_event_hook = s.tick_event_hook ∧
      (init env s).1.tick_event_after_chimera_hook = s.tick_event_after_chimera_hook) ∧
    (∀ a : Nat, env.sig_get "on_tick" = some a → (init env s).2.2 = Except.ok ()) := by
  constructor
  · intro hr
    rw [init_not_found env s he hs hr]
    exact ⟨rfl, rfl, rfl, rfl⟩
  · intro a hr
    rw [init_found env s a he hs hr]

/-- C7 at concrete inputs: from the initial statics, a manager that finds nothing makes `init`
throw and leaves both hooks uninstalled; a manager that finds a signature does not. -/
theorem init_throws_iff_not_found_witness :
    State.initial.enabled = false ∧ State.initial.tick_event_sig = none ∧
    ((init { sig_get := fun _ => none, follow_jump := fun p => p } State.initial).2.2 =
        Except.error "Could not find signature for tick event" ∧
      (init { sig_get := fun _ => none, follow_jump := fun p => p }
        State.initial).1.tick_event_hook.installed = false ∧
      (init { sig_get := fun _ => none, follow_jump := fun p => p }
        State.initial).1.tick_event_after_chimera_hook.installed = false) ∧
    (init { sig_get := fun _ => some 4198400, follow_jump := fun p => p } State.initial).2.2 =
      Except.ok () :=
  ⟨rfl, rfl,
    ⟨((init_throws_iff_not_found { sig_get := fun _ => none, follow_jump := fun p => p }
        State.initial rfl rfl).1 rfl).1,
      by rw [((init_throws_iff_not_found { sig_get := fun _ => none, follow_jump := fun p => p }
        State.initial rfl rfl).1 rfl).2.2.1]; rfl,
      by rw [((init_throws_iff_not_found { sig_get := fun _ => none, follow_jump := fun p => p }
        State.initial rfl rfl).1 rfl).2.2.2]; rfl⟩,
    (init_throws_iff_not_found { sig_get := fun _ => some 4198400, follow_jump := fun p => p }
      State.initial rfl rfl).2 4198400 rfl⟩

theorem init_timing (env : Env) (s : State) :
    (init env s).1.first_tick = s.first_tick ∧ (init env s).1.last_tick = s.last_tick ∧
    (init env s).1.tick_duration = s.tick_duration := by
  cases he : s.enabled
  · cases hs : s.tick_event_sig with
    | none =>
      cases hr : env.sig_get "on_tick" with
      | none => simp [init, he, hs, hr]
      | some a => simp [init, he, hs, hr]
    | some p =>
      cases p with
      | none => simp [init, he, hs]
      | some a => simp [init, he, hs]
  · rw [init_of_enabled env s he]
    exact ⟨rfl, rfl, rfl⟩

/-- C8 as stated fails. A first call of `init` whose lookup finds nothing throws, and afterwards
`enabled` is true although neither hook is installed. -/
theorem enabled_after_failed_init_counterexample :
    (init { sig_get := fun _ => none, follow_jump := fun p => p } State.initial).2.2 =
      Except.error "Could not find signature for tick event" ∧
    (init { sig_get := fun _ => none, follow_jump := fun p => p } State.initial).1.enabled
      = true ∧
    (init { sig_get := fun _ => none, follow_jump := fun p => p }
      State.initial).1.tick_event_hook.installed = false ∧
    (init { sig_get := fun _ => none, follow_jump := fun p => p }
      State.initial).1.tick_event_after_chimera_hook.installed = false :=
  ⟨rfl, rfl, rfl, rfl⟩

/-- C8 amended: `enabled` is set on entry of the first call, before the lookup and before either
hook is touched. After `n` calls from the not-yet-enabled statics, `enabled` is true exactly
when `n ≥ 1`; if the lookup finds the signature, both hooks are then installed; if it finds
nothing, the first call throws, `enabled` stays true and both hooks are left as they were. The
timing statics are never changed by `init`. -/
theorem enabled_set_on_first_call (env : Env) (s : State) (n : Nat) (he : s.enabled = false)
    (hs : s.tick_event_sig = none) :
    ((initTimes env n s).1.enabled = true ↔ 1 ≤ n) ∧
    (∀ a : Nat, env.sig_get "on_tick" = some a → 1 ≤ n →
      (initTimes env n s).1.tick_event_hook.installed = true ∧
      (initTimes env n s).1.tick_event_after_chimera_hook.installed = true) ∧
    (env.sig_get "on_tick" = none → 1 ≤ n →
      (initTimes env n s).2.head? =
        some ([Op.sig_get "on_tick"], Except.error "Could not find signature for tick event") ∧
      (initTimes env n s).1.enabled = true ∧
      (initTimes env n s).1.tick_event_hook = s.tick_event_hook ∧
      (initTimes env n s).1.tick_event_after_chimera_hook = s.tick_event_after_chimera_hook) ∧
    ((initTimes env n s).1.first_tick = s.first_tick ∧
      (initTimes env n s).1.last_tick = s.last_tick ∧
      (initTimes env n s).1.tick_duration = s.tick_duration) := by
  cases n with
  | zero =>
    refine ⟨?_, fun a _ h => absurd h (by decide), fun _ h => absurd h (by decide),
      rfl, rfl, rfl⟩
    simp [initTimes, he]
  | succ k =>
    rw [initTimes_succ]
    refine ⟨⟨fun _ => by omega, fun _ => init_enabled env s⟩, ?_, ?_, init_timing env s⟩
    · intro a hr _
      rw [init_found env s a he hs hr]
      exact ⟨rfl, rfl⟩
    · intro hr _
      rw [init_not_found env s he hs hr]
      exact ⟨rfl, rfl, rfl, rfl⟩

/-- C8 amended, at concrete inputs: two calls with a manager that finds nothing leave `enabled`
true and the hooks of the initial statics untouched. -/
theorem enabled_set_on_first_call_witness :
    State.initial.enabled = false ∧ State.initial.tick_event_sig = none ∧
    ((initTimes { sig_get := fun _ => none, follow_jump := fun p => p } 2
        State.initial).1.enabled = true ↔ 1 ≤ 2) ∧
    (initTimes { sig_get := fun _ => none, follow_jump := fun p => p } 2
        State.initial).1.tick_event_hook = State.initial.tick_event_hook :=
  ⟨rfl, rfl,
    (enabled_set_on_first_call { sig_get := fun _ => none, follow_jump := fun p => p }
      State.initial 2 rfl rfl).1,
    ((enabled_set_on_first_call { sig_get := fun _ => none, follow_jump := fun p => p }
      State.initial 2 rfl rfl).2.2.1 rfl (by decide)).2.2.1⟩

/-- C9 as stated fails. With "on_tick" resolved to `4198400` and a `follow_jump` that lands
`4096` bytes further, the secondary hook sits at `4198400 + 4096 + 23`, not at `4198400 + 23`;
with the same resolved address and a `follow_jump` that returns its argument it sits at
`4198400 + 23`: the secondary address is not determined by the resolved address and the
constant alone. -/
theorem secondary_address_counterexample :
    (init { sig_get := fun _ => some 4198400, follow_jump := fun p => p + 4096 }
        State.initial).1.tick_event_after_chimera_hook.site =
      some (4202519, Routine.tick_event_after_dispatcher) ∧
    (init { sig_get := fun _ => some 4198400, follow_jump := fun p => p }
        State.initial).1.tick_event_after_chimera_hook.site =
      some (4198423, Routine.tick_event_after_dispatcher) ∧
    (4202519 : Nat) ≠ 4198400 + 23 :=
  ⟨rfl, rfl, by decide⟩

/-- C9 amended: a successful first call with resolved address `a` leaves the entry hook
initialized at `a` with the BEFORE dispatcher and hooked, and the secondary hook initialized at
`follow_jump a + 23` with the AFTER dispatcher and hooked; the secondary hook is set up first.
The secondary address depends on nothing but `follow_jump a` and the constant `23`. -/
theorem init_installs_redirect_pair (env : Env) (s : State) (a : Nat) (he : s.enabled = false)
    (hs : s.tick_event_sig = none) (hr : env.sig_get "on_tick" = some a) :
    (init env s).1.tick_event_hook =
      { site := some (a, Routine.tick_event_before_dispatcher), hooked := true } ∧
    (init env s).1.tick_event_after_chimera_hook =
      { site := some (env.follow_jump a + 23, Routine.tick_event_after_dispatcher),
        hooked := true } ∧
    (init env s).2.1 =
      [Op.sig_get "on_tick",
        Op.hook_initialize HookName.tick_event_after_chimera_hook (env.follow_jump a + 23)
          Routine.tick_event_after_dispatcher,
        Op.hook_hook HookName.tick_event_after_chimera_hook,
        Op.hook_initialize HookName.tick_event_hook a Routine.tick_event_before_dispatcher,
        Op.hook_hook HookName.tick_event_hook] ∧
    (init env s).2.2 = Except.ok () := by
  rw [init_found env s a he hs hr]
  exact ⟨rfl, rfl, rfl, rfl⟩

/-- C9 amended, at concrete inputs: "on_tick" resolved to `4198400`, `follow_jump` landing
`4096` bytes further. -/
theorem init_installs_redirect_pair_witness :
    State.initial.enabled = false ∧ State.initial.tick_event_sig = none ∧
    (init { sig_get := fun _ => some 4198400, follow_jump := fun p => p + 4096 }
        State.initial).1.tick_event_hook =
      { site := some (4198400, Routine.tick_event_before_dispatcher), hooked := true } ∧
    (init { sig_get := fun _ => some 4198400, follow_jump := fun p => p + 4096 }
        State.initial).1.tick_event_after_chimera_hook =
      { site := some (4198400 + 4096 + 23, Routine.tick_event_after_dispatcher),
        hooked := true } :=
  ⟨rfl, rfl,
    (init_installs_redirect_pair
      { sig_get := fun _ => some 4198400, follow_jump := fun p => p + 4096 }
      State.initial 4198400 rfl rfl rfl).1,
    (init_installs_redirect_pair
      { sig_get := fun _ => some 4198400, follow_jump := fun p => p + 4096 }
      State.initial 4198400 rfl rfl rfl).2.1⟩

end Balltze
